import Mathlib

/-!
Verification of the NAINTERCUARS repository against its design document.

Two developments live in this file.

`Nucleo` is a shallow embedding of the single-game simulation core described
in the design document (position generator, mode policy, modular and
reference evaluators, gap detector, advantage accumulator, game simulator).
That core is not present under `src/`: the only source file of the
repository, `src/ANONIMUS.py`, is the chess-engine-driven interactive mode
that the document explicitly excludes from the core.  Every definition in
`Nucleo` is therefore modelled from the design document's own words, and is
marked as such.

`Anonimus` is a shallow embedding of `src/ANONIMUS.py` itself: the quantum
lens system (`SistemaLentesAjedrez`), its per-channel computation, the
per-move wave-function evaluation, and the move-selection loop.  Python
floats are idealised as real numbers, the external chess library
(`python-chess`) is an abstract structure of operations, and the global
NumPy random stream is an explicit stream of draws indexed by a counter
carried in the system state.
-/

namespace Nucleo

/-- Modelled from the spec: game phase enumeration (§3). -/
inductive Phase
  | OPENING
  | MIDDLEGAME
  | ENDGAME
deriving DecidableEq, BEq

/-- Modelled from the spec: behavioural mode enumeration (§3). -/
inductive Mode
  | PENSAR
  | ATACAR
deriving DecidableEq, BEq

/-- Modelled from the spec: difficulty tiers (§4.4). -/
inductive Difficulty
  | NORMAL
  | HARD
  | VERY_HARD
deriving DecidableEq, BEq

/-- Modelled from the spec: game outcome enumeration (§3). -/
inductive Outcome
  | MOD_WIN
  | REF_WIN
  | DRAW
deriving DecidableEq, BEq

/-- Modelled from the spec: synthetic board-state descriptor (§3). -/
structure Position where
  material : ℤ
  mobility : ℤ
  control : ℤ
  ply : ℕ
  phase : Phase
deriving DecidableEq

/-- Modelled from the spec: phase is a pure function of ply (§3). -/
def phaseOfPly (ply : ℕ) : Phase :=
  if ply < 15 then Phase.OPENING
  else if ply < 40 then Phase.MIDDLEGAME
  else Phase.ENDGAME

/-- Modelled from the spec: per-ply record of the simulation (§3). -/
structure EvalRecord where
  ply : ℕ
  position : Position
  mode : Mode
  modularScore : ℤ
  referenceScore : ℝ
  gapMagnitude : ℝ
  gapDetected : Bool
  modAdvantageDelta : ℝ
  refAdvantageDelta : ℝ

/-- Modelled from the spec: the Mode Policy's rule-1 "trending" flag (§4.2):
the last three history entries exist, their modular scores are
non-decreasing across all three, and the phase is not OPENING. -/
def trending (history : List EvalRecord) (phase : Phase) : Bool :=
  match history.reverse with
  | c :: b :: a :: _ =>
      decide (a.modularScore ≤ b.modularScore ∧ b.modularScore ≤ c.modularScore ∧
        phase ≠ Phase.OPENING)
  | _ => false

/-- Modelled from the spec: the Mode Policy (§4.2), a fixed-precedence rule
chain evaluated top to bottom, first match wins; the trending flag is
consulted only in the final otherwise-branch. -/
def elegirModo (pos : Position) (previousMode : Mode) (history : List EvalRecord) : Mode :=
  let trend := trending history pos.phase
  if pos.control > 70 ∧ pos.mobility > 35 then Mode.ATACAR
  else if pos.control < 30 ∧ pos.mobility < 20 then Mode.PENSAR
  else if pos.phase = Phase.OPENING then Mode.PENSAR
  else if pos.phase = Phase.ENDGAME ∧ pos.mobility > 25 then Mode.ATACAR
  else if previousMode = Mode.PENSAR ∧ pos.mobility > 30 then Mode.ATACAR
  else if previousMode = Mode.ATACAR ∧ pos.control < 40 then Mode.PENSAR
  else if trend then Mode.ATACAR else Mode.PENSAR

/-- Modelled from the spec: the Modular Evaluator (§4.3), steps 1-6. -/
def evaluarModular (pos : Position) (ply : ℕ) (mode previousMode : Mode)
    (consecutiveSameModeCount : ℕ) : ℤ :=
  let base := pos.material * 100 + pos.mobility * 10 + pos.control + (ply : ℤ) * 13
  let base := if previousMode ≠ mode then base + 17 else base
  let base := if consecutiveSameModeCount > 5 then
    base - (consecutiveSameModeCount : ℤ) * 7 else base
  let mod7 := base % 7
  let mod10 := base % 10
  match mode with
  | Mode.PENSAR => mod7 + mod10 + (if mod7 = 6 ∧ mod10 ≥ 8 then 3 else 0)
  | Mode.ATACAR =>
      let producto := mod7 * mod10
      if producto = 0 then 0
      else if producto ≥ 40 then producto + 5
      else producto

/-- The adjusted base of the Modular Evaluator (spec §4.3 steps 1-3),
factored out for the statement of claim C7. -/
def baseAjustada (pos : Position) (ply : ℕ) (mode previousMode : Mode)
    (consecutiveSameModeCount : ℕ) : ℤ :=
  pos.material * 100 + pos.mobility * 10 + pos.control + (ply : ℤ) * 13 +
    (if previousMode ≠ mode then 17 else 0) -
    (if consecutiveSameModeCount > 5 then (consecutiveSameModeCount : ℤ) * 7 else 0)

/-- The mode-dependent combination of `base mod 7` and `base mod 10`
(spec §4.3 steps 5-6), factored out for the statement of claim C7. -/
def combinarModular (mode : Mode) (mod7 mod10 : ℤ) : ℤ :=
  match mode with
  | Mode.PENSAR => mod7 + mod10 + (if mod7 = 6 ∧ mod10 ≥ 8 then 3 else 0)
  | Mode.ATACAR =>
      let producto := mod7 * mod10
      if producto = 0 then 0
      else if producto ≥ 40 then producto + 5
      else producto

/-- Modelled from the spec: the phase-dependent factor of the Reference
Evaluator at HARD and VERY_HARD difficulty (§4.4 step 2). -/
def factorFase (phase : Phase) : ℝ :=
  match phase with
  | Phase.OPENING => 1.05
  | Phase.MIDDLEGAME => 1.10
  | Phase.ENDGAME => 1.15

/-- Modelled from the spec: the half-width of the uniform noise added by the
Reference Evaluator (§4.4 step 4). -/
def nivelRuido (d : Difficulty) : ℝ :=
  match d with
  | Difficulty.NORMAL => 0.25
  | Difficulty.HARD => 0.18
  | Difficulty.VERY_HARD => 0.12

open Classical in
/-- Modelled from the spec: the Reference Evaluator (§4.4).  Its one random
draw is passed in as the already-sampled noise value. -/
noncomputable def evaluarReferencia (pos : Position) (ply : ℕ) (phase : Phase)
    (d : Difficulty) (noise : ℝ) : ℝ :=
  let ev : ℝ := (pos.material : ℝ) / 7 + Real.sqrt (max (pos.mobility : ℝ) 1) / Real.sqrt 7 +
    (pos.control : ℝ) / 100 + (pos.mobility : ℝ) / 10
  let ev := if d = Difficulty.HARD ∨ d = Difficulty.VERY_HARD then
    ev * factorFase phase + ((pos.material % 100 : ℤ) : ℝ) / 1000 else ev
  let ev := if d = Difficulty.VERY_HARD then
    ev + Real.sin ((pos.control : ℝ) / 30) * 0.5 + (ply : ℝ) * 0.0001 else ev
  let ev := ev + noise
  ev + (ply : ℝ) * 0.00001 / 7 + Real.sqrt (ply : ℝ) / Real.sqrt 7 * 0.0001

open Classical in
/-- Modelled from the spec: the Gap Detector (§4.5).  Returns
(detected, gapMagnitude). -/
noncomputable def detectarGap (modularScore : ℤ) (referenceScore : ℝ) (mode : Mode) :
    Bool × ℝ :=
  let gap : ℝ := |(modularScore : ℝ) - ((round (referenceScore * 10) : ℤ) : ℝ)|
  (if (mode = Mode.ATACAR ∧ gap > 8) ∨ (mode = Mode.PENSAR ∧ gap > 5) then true else false,
    gap)

open Classical in
/-- Modelled from the spec: the Advantage Accumulator (§4.6).  Returns
(modAdvantageDelta, refAdvantageDelta), both starting at 0. -/
noncomputable def acumularVentaja (detected : Bool) (gap : ℝ) (modularScore : ℤ)
    (mode : Mode) (d : Difficulty) (ply : ℕ) (pos : Position) (referenceScore : ℝ) :
    ℝ × ℝ :=
  let modDelta : ℝ := 0
  let refDelta : ℝ := 0
  let modDelta := if detected then
      (if mode = Mode.ATACAR ∧ gap > 10 then modDelta + 4.0
       else if mode = Mode.PENSAR ∧ gap > 6 then modDelta + 2.0
       else if gap > 8 then modDelta + 1.5
       else modDelta)
    else modDelta
  let modDelta := if mode = Mode.ATACAR ∧ modularScore ≥ 35 then modDelta + 1.5 else modDelta
  let modDelta := if mode = Mode.PENSAR ∧ modularScore ≥ 12 then modDelta + 1.0 else modDelta
  let refDelta := if (d = Difficulty.HARD ∨ d = Difficulty.VERY_HARD) ∧
      pos.phase = Phase.MIDDLEGAME then refDelta + 0.8 else refDelta
  let refDelta := if (d = Difficulty.HARD ∨ d = Difficulty.VERY_HARD) ∧
      pos.control > 60 ∧ pos.mobility > 30 then refDelta + 1.0 else refDelta
  let modDelta := if (d = Difficulty.HARD ∨ d = Difficulty.VERY_HARD) ∧
      ply > 20 ∧ d = Difficulty.VERY_HARD then modDelta * 0.85 else modDelta
  if |referenceScore - ((round referenceScore : ℤ) : ℝ)| > 0.4 then
    (modDelta + 0.5, refDelta)
  else
    (modDelta, refDelta + 0.3)

/-- Modelled from the spec: the difficulty-dependent win margin (§4.7). -/
def margen (d : Difficulty) : ℝ :=
  match d with
  | Difficulty.NORMAL => 1.35
  | Difficulty.HARD => 1.25
  | Difficulty.VERY_HARD => 1.15

open Classical in
/-- Modelled from the spec: outcome determination (§4.7), a sequential
first-match chain: MOD_WIN, then REF_WIN, otherwise DRAW. -/
noncomputable def determinarResultado (modularTotal referenceTotal : ℝ)
    (d : Difficulty) : Outcome :=
  if modularTotal > referenceTotal * margen d then Outcome.MOD_WIN
  else if referenceTotal > modularTotal * margen d then Outcome.REF_WIN
  else Outcome.DRAW

/-- Clamp an integer to a closed interval. -/
def clampI (lo hi x : ℤ) : ℤ := max lo (min hi x)

/-- Modelled from the spec: a uniform integer draw in [lo, hi] derived from
one unit-interval draw of the pseudo-random source (§6). -/
noncomputable def uniformInt (lo hi : ℤ) (u : ℝ) : ℤ :=
  lo + ⌊u * ((hi - lo + 1 : ℤ) : ℝ)⌋

/-- Modelled from the spec: a uniform real draw in [lo, hi] derived from one
unit-interval draw of the pseudo-random source (§6). -/
noncomputable def uniformReal (lo hi : ℝ) (u : ℝ) : ℝ := lo + u * (hi - lo)

/-- Modelled from the spec: the Position Generator (§4.1), consuming three
draws of the random stream. -/
noncomputable def generarPosicion (ply : ℕ) (prev : Option Position)
    (u1 u2 u3 : ℝ) : Position :=
  match prev with
  | none =>
      { material := uniformInt 500 1500 u1
        mobility := uniformInt 10 60 u2
        control := uniformInt 0 100 u3
        ply := ply
        phase := phaseOfPly ply }
  | some p =>
      { material := clampI 200 2000 (p.material + round (uniformReal (-50) 50 u1))
        mobility := clampI 5 60 (p.mobility + round (uniformReal (-5) 5 u2))
        control := clampI 0 100 (p.control + round (uniformReal (-10) 10 u3))
        ply := ply
        phase := phaseOfPly ply }

/-- Modelled from the spec: the final result of one simulated game (§3). -/
structure GameResult where
  totalPlies : ℕ
  modularTotalScore : ℝ
  referenceTotalScore : ℝ
  outcome : Outcome
  history : List EvalRecord

/-- Modelled from the spec: the per-game run state threaded through the ply
loop (§3), together with the running totals and the index into the shared
random stream. -/
structure SimState where
  idx : ℕ
  previousMode : Mode
  consecutiveSameModeCount : ℕ
  previousPosition : Option Position
  history : List EvalRecord
  modTotal : ℝ
  refTotal : ℝ

open Classical in
/-- Modelled from the spec: one ply of the Game Simulator (§4.7): generate
position, decide mode, update the consecutive-mode counter, run both
evaluators, detect the gap, accumulate advantages, append the EvalRecord,
advance previousMode and previousPosition.  The position generator consumes
three stream draws and the reference evaluator one. -/
noncomputable def pasoSimulacion (d : Difficulty) (g : ℕ → ℝ) (ply : ℕ)
    (st : SimState) : SimState :=
  let pos := generarPosicion ply st.previousPosition (g st.idx) (g (st.idx + 1))
    (g (st.idx + 2))
  let mode := elegirModo pos st.previousMode st.history
  let count := if mode = st.previousMode then st.consecutiveSameModeCount + 1 else 1
  let modScore := evaluarModular pos ply mode st.previousMode count
  let noise := nivelRuido d * (2 * g (st.idx + 3) - 1)
  let refScore := evaluarReferencia pos ply pos.phase d noise
  let gp := detectarGap modScore refScore mode
  let deltas := acumularVentaja gp.1 gp.2 modScore mode d ply pos refScore
  let registro : EvalRecord :=
    { ply := ply, position := pos, mode := mode, modularScore := modScore
      referenceScore := refScore, gapMagnitude := gp.2, gapDetected := gp.1
      modAdvantageDelta := deltas.1, refAdvantageDelta := deltas.2 }
  { idx := st.idx + 4
    previousMode := mode
    consecutiveSameModeCount := count
    previousPosition := some pos
    history := st.history ++ [registro]
    modTotal := st.modTotal + deltas.1
    refTotal := st.refTotal + deltas.2 }

/-- Modelled from the spec: the ply loop of the Game Simulator (§4.7),
running the given number of remaining plies. -/
noncomputable def bucleSimulacion (d : Difficulty) (g : ℕ → ℝ) :
    ℕ → ℕ → SimState → SimState
  | 0, _, st => st
  | n + 1, ply, st => bucleSimulacion d g n (ply + 1) (pasoSimulacion d g ply st)

/-- The initial run state of `simulate_game`: first ply, empty history,
zero totals, stream index 1 (stream index 0 draws the total ply count).
The document does not fix the initial previousMode and counter; they are
taken as PENSAR and 0, so that the first ply's counter update yields 1 in
either branch. -/
def estadoInicial : SimState :=
  { idx := 1, previousMode := Mode.PENSAR, consecutiveSameModeCount := 0
    previousPosition := none, history := [], modTotal := 0, refTotal := 0 }

/-- Modelled from the spec: the single operation the core exposes (§6),
`simulate_game(difficulty) -> GameResult`.  The predetermined total ply
count is drawn once as a uniform integer in [35, 65] (§4.7); the run state
starts at the first ply with an empty history.  The document does not fix
the initial previousMode and counter; they are taken as PENSAR and 0, so
that the first ply's counter update yields 1 in either branch. -/
noncomputable def simulate_game (d : Difficulty) (g : ℕ → ℝ) : GameResult :=
  let total := (uniformInt 35 65 (g 0)).toNat
  let final := bucleSimulacion d g total 1 estadoInicial
  { totalPlies := total
    modularTotalScore := final.modTotal
    referenceTotalScore := final.refTotal
    outcome := determinarResultado final.modTotal final.refTotal d
    history := final.history }

/-- Totals-coherence invariant of the simulator's run state: the running
totals equal the sums of the per-ply deltas recorded in the history. -/
def coherente (st : SimState) : Prop :=
  st.modTotal = (st.history.map EvalRecord.modAdvantageDelta).sum ∧
  st.refTotal = (st.history.map EvalRecord.refAdvantageDelta).sum

lemma paso_coherente (d : Difficulty) (g : ℕ → ℝ) (ply : ℕ) (st : SimState)
    (h : coherente st) : coherente (pasoSimulacion d g ply st) := by
  obtain ⟨h1, h2⟩ := h
  constructor
  · simp only [pasoSimulacion]
    rw [h1, List.map_append, List.sum_append]
    simp
  · simp only [pasoSimulacion]
    rw [h2, List.map_append, List.sum_append]
    simp

lemma paso_history_length (d : Difficulty) (g : ℕ → ℝ) (ply : ℕ) (st : SimState) :
    (pasoSimulacion d g ply st).history.length = st.history.length + 1 := by
  show (st.history ++ [_]).length = st.history.length + 1
  simp

lemma bucle_coherente (d : Difficulty) (g : ℕ → ℝ) :
    ∀ (n ply : ℕ) (st : SimState), coherente st →
      coherente (bucleSimulacion d g n ply st) := by
  intro n
  induction n with
  | zero => intro ply st h; exact h
  | succ k ih =>
      intro ply st h
      exact ih (ply + 1) _ (paso_coherente d g ply st h)

lemma bucle_history_length (d : Difficulty) (g : ℕ → ℝ) :
    ∀ (n ply : ℕ) (st : SimState),
      (bucleSimulacion d g n ply st).history.length = st.history.length + n := by
  intro n
  induction n with
  | zero => intro ply st; rfl
  | succ k ih =>
      intro ply st
      show (bucleSimulacion d g k (ply + 1) (pasoSimulacion d g ply st)).history.length = _
      rw [ih (ply + 1) (pasoSimulacion d g ply st), paso_history_length]
      omega

/-- The Modular Evaluator factors as the mode-dependent combination of the
adjusted base taken mod 7 and mod 10. -/
lemma evaluarModular_eq_combinar (pos : Position) (ply : ℕ)
    (mode prevMode : Mode) (k : ℕ) :
    evaluarModular pos ply mode prevMode k =
      combinarModular mode (baseAjustada pos ply mode prevMode k % 7)
        (baseAjustada pos ply mode prevMode k % 10) := by
  have hb : baseAjustada pos ply mode prevMode k =
      (if k > 5 then
        (if prevMode ≠ mode then
          pos.material * 100 + pos.mobility * 10 + pos.control + (ply : ℤ) * 13 + 17
         else pos.material * 100 + pos.mobility * 10 + pos.control + (ply : ℤ) * 13) -
          (k : ℤ) * 7
       else
        (if prevMode ≠ mode then
          pos.material * 100 + pos.mobility * 10 + pos.control + (ply : ℤ) * 13 + 17
         else pos.material * 100 + pos.mobility * 10 + pos.control + (ply : ℤ) * 13)) := by
    simp only [baseAjustada]
    split_ifs <;> ring
  rw [hb]
  rfl

lemma margen_ge_one (d : Difficulty) : 1 ≤ margen d := by
  cases d <;> norm_num [margen]

lemma outcome_cases (o : Outcome) :
    o = Outcome.MOD_WIN ∨ o = Outcome.REF_WIN ∨ o = Outcome.DRAW := by
  cases o
  · exact Or.inl rfl
  · exact Or.inr (Or.inl rfl)
  · exact Or.inr (Or.inr rfl)

end Nucleo

namespace Anonimus

/-- The numeric constants of `src/ANONIMUS.py`: base light speed, channel
count, numerical epsilon and spatial domain. -/
def C_BASE : ℝ := 15000000.0

/-- Number of parallel quantum channels (`LANES` in the source). -/
def LANES : ℕ := 7

/-- Numerical epsilon guarding the division by `L` (`EPS` in the source). -/
def EPS : ℝ := 1e-9

/-- Spatial domain length (`L_DOMAIN` in the source). -/
def L_DOMAIN : ℝ := 1.0

/-- Piece kinds of the external chess library. -/
inductive Pieza
  | peon
  | caballo
  | alfil
  | torre
  | dama
  | rey
deriving DecidableEq, BEq

/-- The three channel modes produced by `calcular_canal` in the source:
"ATACAR", "PENSAR" and "LATENTE". -/
inductive Modo
  | ATACAR
  | PENSAR
  | LATENTE
deriving DecidableEq, BEq

/-- The operations `src/ANONIMUS.py` takes from the external `python-chess`
library, abstracted over the position and move representations: applying a
move, listing legal moves, check and capture tests, and piece counting by
kind and colour (`true` = white). -/
structure ChessLib (Pos Move : Type) where
  applyMove : Pos → Move → Pos
  legalMoves : Pos → List Move
  isCheck : Pos → Bool
  isCapture : Pos → Move → Bool
  pieceCount : Pos → Pieza → Bool → ℕ

/-- A `python-chess` board: its current position plus the stack of previous
positions that `push` records and `pop` restores. -/
structure Board (Pos Move : Type) where
  pos : Pos
  stack : List Pos

/-- `board.push(move)`: apply the move and remember the previous position. -/
def Board.push {Pos Move : Type} (lib : ChessLib Pos Move) (b : Board Pos Move)
    (m : Move) : Board Pos Move :=
  { pos := lib.applyMove b.pos m, stack := b.pos :: b.stack }

/-- `board.pop()`: restore the most recently pushed-over position. -/
def Board.pop {Pos Move : Type} (b : Board Pos Move) : Board Pos Move :=
  match b.stack with
  | [] => b
  | p :: rest => { pos := p, stack := rest }

/-- The `LenteParams` dataclass of the source. -/
structure LenteParams where
  L : ℝ
  c : ℝ
  alpha : ℝ
  beta : ℝ
  intensidad : ℝ
  umbral_atacar : ℝ
  umbral_pensar : ℝ

/-- The default `LenteParams()` values of the source. -/
def paramsIniciales : LenteParams :=
  { L := L_DOMAIN, c := C_BASE, alpha := 0.10, beta := 0.05, intensidad := 1.0
    umbral_atacar := 0.15, umbral_pensar := 0.08 }

/-- The mutable state of `SistemaLentesAjedrez`: its parameters, the kick
accumulator, the error history, the quantum time, and the position of the
global NumPy random stream (modelled as an explicit draw counter). -/
structure SistemaLentes where
  p : LenteParams
  impulso : ℝ
  hist_error : ℝ
  t_global : ℝ
  rng : ℕ

/-- `SistemaLentesAjedrez.__init__` with the given parameters: zero impulse,
zero error history, zero quantum time, stream at its start. -/
def sistemaInicial (params : LenteParams) : SistemaLentes :=
  { p := params, impulso := 0, hist_error := 0, t_global := 0, rng := 0 }

/-- Channel phase `k`: `np.linspace(0, 2π, 7, endpoint=False)` gives
`2π·k/7`. -/
noncomputable def fase (k : ℕ) : ℝ := 2 * Real.pi * (k : ℝ) / 7

/-- `c(t) = c / (1 + α·sin(β·t))`. -/
noncomputable def SistemaLentes.c_t (s : SistemaLentes) (t : ℝ) : ℝ :=
  s.p.c / (1.0 + s.p.alpha * Real.sin (s.p.beta * t))

/-- `ω_n(t) = c(t) · k_n` with `k_n = n·π / max(L, EPS)`. -/
noncomputable def SistemaLentes.omega_n (s : SistemaLentes) (n : ℕ) (t : ℝ) : ℝ :=
  s.c_t t * (((n : ℝ) * Real.pi) / max s.p.L EPS)

/-- `kick(magnitud)`: add the magnitude to the impulse accumulator. -/
def SistemaLentes.kick (s : SistemaLentes) (magnitud : ℝ) : SistemaLentes :=
  { s with impulso := s.impulso + magnitud }

/-- `ajustar_parametros(error_hardware)`: clamp-adjust α and β and decay the
error history. -/
def SistemaLentes.ajustar_parametros (s : SistemaLentes) (error_hardware : ℝ) :
    SistemaLentes :=
  { s with
      p := { s.p with
        alpha := max 0.01 (min 0.50 (s.p.alpha + 0.10 * error_hardware))
        beta := max 0.01 (min 0.25 (s.p.beta + 0.05 * error_hardware)) }
      hist_error := 0.9 * s.hist_error + 0.1 * |error_hardware| }

/-- `softprod(a, b)` with the default smoothing `k = 0.25`:
`sign(a·b) · |a·b|^(1/(1+k))`. -/
noncomputable def softprod (a b : ℝ) : ℝ :=
  Real.sign (a * b) * |a * b| ^ ((1.0 : ℝ) / (1.0 + 0.25))

/-- `avanzar_tiempo(dt)`: advance the quantum time. -/
def SistemaLentes.avanzar_tiempo (s : SistemaLentes) (dt : ℝ) : SistemaLentes :=
  { s with t_global := s.t_global + dt }

/-- What one `calcular_canal` call returns, together with the system state
after its internal `ajustar_parametros` call and random draw. -/
structure CanalResultado where
  salida : Fin 5 → ℝ
  modo : Modo
  energia : ℝ
  sistema : SistemaLentes

open Classical in
/-- `calcular_canal(x, t, n, fase_canal, indice_i, deltaC, S)`.  The one
`np.random.uniform(-1, 1)` draw is `u s.rng`, where `u` is the ambient
stream of draws; the draw counter advances by one. -/
noncomputable def SistemaLentes.calcular_canal (s : SistemaLentes) (u : ℕ → ℝ)
    (x : Fin 5 → ℝ) (t : ℝ) (n : ℕ) (fase_canal : ℝ) (indice_i : ℤ)
    (deltaC S : ℝ) : CanalResultado :=
  let k_n := ((n : ℝ) * Real.pi) / max s.p.L EPS
  let omega := s.omega_n n t
  let base : Fin 5 → ℂ := fun i =>
    ((Real.sin (k_n * x i) : ℝ) : ℂ) * Complex.exp (-Complex.I * (omega : ℝ) * (t : ℝ))
  let caos := 0.35 * Real.sin (0.7 * t + fase_canal) +
    0.65 * Real.cos (0.41 * t + 0.5 * fase_canal)
  let err_hw := 0.12 * Real.sin (0.13 * t + fase_canal) + 0.05 * u s.rng
  let s1 := SistemaLentes.ajustar_parametros { s with rng := s.rng + 1 } err_hw
  let analizar : Fin 5 → ℝ := fun i => (base i).re + caos
  let forzar : Fin 5 → ℝ := fun i =>
    softprod (base i).re ((S ^ deltaC) * (1.0 + 0.10 * (indice_i : ℝ)))
  let energia_analizar := (∑ i, (analizar i) ^ 2) / 5
  let energia_forzar := (∑ i, (forzar i) ^ 2) / 5
  let energia_total := energia_analizar + energia_forzar + s1.impulso
  if energia_total > s1.p.umbral_atacar then
    { salida := fun i => forzar i * (1.0 + 0.25 * s1.impulso) * s1.p.intensidad
      modo := Modo.ATACAR, energia := energia_total, sistema := s1 }
  else if energia_total > s1.p.umbral_pensar then
    { salida := fun i => analizar i * s1.p.intensidad
      modo := Modo.PENSAR, energia := energia_total, sistema := s1 }
  else
    { salida := fun i => (analizar i + forzar i) * 0.5 * s1.p.intensidad
      modo := Modo.LATENTE, energia := energia_total, sistema := s1 }

/-- `calcular_material(board)`: absolute material balance with values
pawn 1, knight 3, bishop 3, rook 5, queen 9, king 0. -/
def valorPieza : Pieza → ℤ
  | Pieza.peon => 1
  | Pieza.caballo => 3
  | Pieza.alfil => 3
  | Pieza.torre => 5
  | Pieza.dama => 9
  | Pieza.rey => 0

/-- The list of piece kinds iterated by `calcular_material`. -/
def todasPiezas : List Pieza :=
  [Pieza.peon, Pieza.caballo, Pieza.alfil, Pieza.torre, Pieza.dama, Pieza.rey]

/-- `calcular_material(board)`. -/
def calcular_material {Pos Move : Type} (lib : ChessLib Pos Move) (pos : Pos) : ℤ :=
  let white := (todasPiezas.map fun pt => (lib.pieceCount pos pt true : ℤ) * valorPieza pt).sum
  let black := (todasPiezas.map fun pt => (lib.pieceCount pos pt false : ℤ) * valorPieza pt).sum
  |white - black|

/-- The fixed quantum sampling coordinates `x = [0.1, 0.3, 0.5, 0.7, 0.9]`. -/
noncomputable def xMuestra : Fin 5 → ℝ := ![0.1, 0.3, 0.5, 0.7, 0.9]

/-- The (channel, harmonic) pairs iterated by `funcion_onda_movimiento`:
channels `k = 0..6` (outer loop), harmonics `n = 1, 2, 3` (inner loop). -/
def paresCanalArmonico : List (ℕ × ℕ) :=
  (List.range LANES).flatMap fun k => [(k, 1), (k, 2), (k, 3)]

/-- The running accumulation of the channel superposition loop: the summed
field, the energy and mode lists in call order, and the evolving system
state. -/
structure CanalesAcum where
  field : Fin 5 → ℝ
  energias : List ℝ
  modos : List Modo
  sistema : SistemaLentes

/-- The channel superposition loop of `funcion_onda_movimiento`, processing
the (channel, harmonic) pairs in order and threading the system state
through each `calcular_canal` call. -/
noncomputable def canalesLoop (u : ℕ → ℝ) (x : Fin 5 → ℝ) (t : ℝ) (indice_i : ℤ)
    (deltaC S : ℝ) : List (ℕ × ℕ) → SistemaLentes → CanalesAcum
  | [], s => { field := fun _ => 0, energias := [], modos := [], sistema := s }
  | kn :: rest, s =>
      let r := s.calcular_canal u x t kn.2 (fase kn.1) indice_i deltaC S
      let acc := canalesLoop u x t indice_i deltaC S rest r.sistema
      { field := fun i => r.salida i + acc.field i
        energias := r.energia :: acc.energias
        modos := r.modo :: acc.modos
        sistema := acc.sistema }

/-- The field normalisation `field_total *= 1/max(1, max|field| + 1e-6)`
(computed but unused by the source, kept for fidelity). -/
noncomputable def normalizarCampo (f : Fin 5 → ℝ) : Fin 5 → ℝ :=
  let m := ((List.ofFn fun i => |f i|).foldr max 0)
  fun i => f i * (1.0 / max 1.0 (m + 1e-6))

/-- The per-move evaluation dictionary returned by
`funcion_onda_movimiento`. -/
structure Evaluacion where
  score : ℝ
  energia : ℝ
  modo : Modo
  canales_atacar : ℕ
  canales_pensar : ℕ
  c_t : ℝ
  impulso : ℝ

open Classical in
/-- `funcion_onda_movimiento(board, move, move_number)`: superpose the 21
channel calls, measure the total energy, vote the dominant mode, score by
energy and mode, and decay the impulse.  Returns the evaluation together
with the mutated system state. -/
noncomputable def SistemaLentes.funcion_onda_movimiento {Pos Move : Type}
    (s : SistemaLentes) (lib : ChessLib Pos Move) (u : ℕ → ℝ) (b : Board Pos Move)
    (_move : Move) (move_number : ℕ) : Evaluacion × SistemaLentes :=
  let material := calcular_material lib b.pos
  let mobility := (lib.legalMoves b.pos).length
  let x := xMuestra
  let indice_i := material % 10 + 1
  let deltaC := 0.5 + (mobility : ℝ) / 100.0
  let S := 1.0 + (move_number : ℝ) / 100.0
  let t := s.t_global
  let acc := canalesLoop u x t indice_i deltaC S paresCanalArmonico s
  let campoNormalizado := normalizarCampo acc.field
  let energia_total := acc.energias.sum / (acc.energias.length : ℝ)
  let modo_atacar := acc.modos.count Modo.ATACAR
  let modo_pensar := acc.modos.count Modo.PENSAR
  let modo_final := if modo_atacar > modo_pensar then Modo.ATACAR else Modo.PENSAR
  let score := energia_total * 100.0
  let score := if modo_final = Modo.ATACAR then score * 1.5 else score
  let s2 := acc.sistema
  let s3 := { s2 with impulso := s2.impulso * 0.96 }
  let _ := campoNormalizado
  ({ score := score, energia := energia_total, modo := modo_final
     canales_atacar := modo_atacar, canales_pensar := modo_pensar
     c_t := s3.c_t t, impulso := s3.impulso }, s3)

/-- What `evaluar_movimiento_lentes` leaves behind: the board (pushed then
popped), the evaluation (with event bonuses applied), and the system state
(with event kicks applied). -/
structure EvalResultado (Pos Move : Type) where
  board : Board Pos Move
  eval : Evaluacion
  sistema : SistemaLentes

/-- `evaluar_movimiento_lentes(board, move, move_number, sistema_lentes)`:
push the move, evaluate the resulting position, apply check and capture
kicks and score bonuses, pop the move. -/
noncomputable def evaluar_movimiento_lentes {Pos Move : Type} (lib : ChessLib Pos Move)
    (u : ℕ → ℝ) (b : Board Pos Move) (move : Move) (move_number : ℕ)
    (s : SistemaLentes) : EvalResultado Pos Move :=
  let b1 := Board.push lib b move
  let r := s.funcion_onda_movimiento lib u b1 move move_number
  let ev1 := r.1
  let s1 := r.2
  let ev2 := if lib.isCheck b1.pos then { ev1 with score := ev1.score + 50 } else ev1
  let s2 := if lib.isCheck b1.pos then s1.kick 0.8 else s1
  let ev3 := if lib.isCapture b1.pos move then { ev2 with score := ev2.score + 30 } else ev2
  let s3 := if lib.isCapture b1.pos move then s2.kick 0.5 else s2
  let b2 := Board.pop b1
  { board := b2, eval := ev3, sistema := s3 }

/-- What `seleccionar_movimiento_lentes` returns: the best (move,
evaluation) pair if any, plus the board and system state after the call. -/
structure SeleccionResultado (Pos Move : Type) where
  mejor : Option (Move × Evaluacion)
  board : Board Pos Move
  sistema : SistemaLentes

open Classical in
/-- The selection loop of `seleccionar_movimiento_lentes`: evaluate each
legal move in order, threading the mutated system state, and keep the first
strictly-best (move, evaluation) pair.  `none` plays the role of the
initial `-inf` best score: the first evaluated move always replaces it. -/
noncomputable def bucleSeleccion {Pos Move : Type} (lib : ChessLib Pos Move)
    (u : ℕ → ℝ) (move_number : ℕ) : List Move → Board Pos Move → SistemaLentes →
    Option (Move × Evaluacion) → SeleccionResultado Pos Move
  | [], b, s, best => { mejor := best, board := b, sistema := s }
  | m :: ms, b, s, best =>
      let r := evaluar_movimiento_lentes lib u b m move_number s
      let best' := match best with
        | none => some (m, r.eval)
        | some me => if r.eval.score > me.2.score then some (m, r.eval) else some me
      bucleSeleccion lib u move_number ms r.board r.sistema best'

/-- The per-iteration (move, evaluation) pairs of the selection loop, in
iteration order, with the system state threaded exactly as the loop does. -/
noncomputable def listaEvaluaciones {Pos Move : Type} (lib : ChessLib Pos Move)
    (u : ℕ → ℝ) (move_number : ℕ) : List Move → Board Pos Move → SistemaLentes →
    List (Move × Evaluacion)
  | [], _, _ => []
  | m :: ms, b, s =>
      let r := evaluar_movimiento_lentes lib u b m move_number s
      (m, r.eval) :: listaEvaluaciones lib u move_number ms r.board r.sistema

/-- `seleccionar_movimiento_lentes(board, move_number, sistema_lentes)`:
return `(None, None)` on an empty legal-move list, otherwise run the
selection loop and advance the quantum time by 0.08. -/
noncomputable def seleccionar_movimiento_lentes {Pos Move : Type}
    (lib : ChessLib Pos Move) (u : ℕ → ℝ) (b : Board Pos Move) (move_number : ℕ)
    (s : SistemaLentes) : SeleccionResultado Pos Move :=
  match lib.legalMoves b.pos with
  | [] => { mejor := none, board := b, sistema := s }
  | m :: ms =>
      let r := bucleSeleccion lib u move_number (m :: ms) b s none
      { mejor := r.mejor, board := r.board, sistema := r.sistema.avanzar_tiempo 0.08 }

/-- The parameter bounds enforced by `ajustar_parametros`. -/
def parametrosAcotados (p : LenteParams) : Prop :=
  0.01 ≤ p.alpha ∧ p.alpha ≤ 0.50 ∧ 0.01 ≤ p.beta ∧ p.beta ≤ 0.25

lemma Board.pop_push {Pos Move : Type} (lib : ChessLib Pos Move) (b : Board Pos Move)
    (m : Move) : Board.pop (Board.push lib b m) = b := by
  cases b
  rfl

lemma ajustar_parametros_acotados (s : SistemaLentes) (e : ℝ) :
    parametrosAcotados (s.ajustar_parametros e).p := by
  refine ⟨le_max_left _ _, max_le (by norm_num) (min_le_left _ _),
    le_max_left _ _, max_le (by norm_num) (min_le_left _ _)⟩

lemma ajustar_parametros_impulso (s : SistemaLentes) (e : ℝ) :
    (s.ajustar_parametros e).impulso = s.impulso := rfl

lemma ajustar_parametros_t_global (s : SistemaLentes) (e : ℝ) :
    (s.ajustar_parametros e).t_global = s.t_global := rfl

lemma kick_p (s : SistemaLentes) (m : ℝ) : (s.kick m).p = s.p := rfl

lemma kick_t_global (s : SistemaLentes) (m : ℝ) : (s.kick m).t_global = s.t_global := rfl

lemma avanzar_tiempo_p (s : SistemaLentes) (dt : ℝ) : (s.avanzar_tiempo dt).p = s.p := rfl

/-- The system state left behind by one `calcular_canal` call is exactly the
`ajustar_parametros` update (with the stream advanced by one draw). -/
lemma calcular_canal_sistema (s : SistemaLentes) (u : ℕ → ℝ) (x : Fin 5 → ℝ)
    (t : ℝ) (n : ℕ) (fc : ℝ) (ii : ℤ) (dC S : ℝ) :
    (s.calcular_canal u x t n fc ii dC S).sistema =
      SistemaLentes.ajustar_parametros { s with rng := s.rng + 1 }
        (0.12 * Real.sin (0.13 * t + fc) + 0.05 * u s.rng) := by
  simp only [SistemaLentes.calcular_canal]
  split_ifs <;> rfl

lemma calcular_canal_acotados (s : SistemaLentes) (u : ℕ → ℝ) (x : Fin 5 → ℝ)
    (t : ℝ) (n : ℕ) (fc : ℝ) (ii : ℤ) (dC S : ℝ) :
    parametrosAcotados (s.calcular_canal u x t n fc ii dC S).sistema.p := by
  rw [calcular_canal_sistema]
  exact ajustar_parametros_acotados _ _

lemma calcular_canal_impulso (s : SistemaLentes) (u : ℕ → ℝ) (x : Fin 5 → ℝ)
    (t : ℝ) (n : ℕ) (fc : ℝ) (ii : ℤ) (dC S : ℝ) :
    (s.calcular_canal u x t n fc ii dC S).sistema.impulso = s.impulso := by
  rw [calcular_canal_sistema]
  rfl

lemma calcular_canal_t_global (s : SistemaLentes) (u : ℕ → ℝ) (x : Fin 5 → ℝ)
    (t : ℝ) (n : ℕ) (fc : ℝ) (ii : ℤ) (dC S : ℝ) :
    (s.calcular_canal u x t n fc ii dC S).sistema.t_global = s.t_global := by
  rw [calcular_canal_sistema]
  rfl

lemma calcular_canal_rng (s : SistemaLentes) (u : ℕ → ℝ) (x : Fin 5 → ℝ)
    (t : ℝ) (n : ℕ) (fc : ℝ) (ii : ℤ) (dC S : ℝ) :
    (s.calcular_canal u x t n fc ii dC S).sistema.rng = s.rng + 1 := by
  rw [calcular_canal_sistema]
  rfl

lemma canalesLoop_rng (u : ℕ → ℝ) (x : Fin 5 → ℝ) (t : ℝ) (ii : ℤ) (dC S : ℝ) :
    ∀ (l : List (ℕ × ℕ)) (s : SistemaLentes),
      (canalesLoop u x t ii dC S l s).sistema.rng = s.rng + l.length := by
  intro l
  induction l with
  | nil => intro s; rfl
  | cons kn rest ih =>
      intro s
      simp only [canalesLoop, List.length_cons]
      rw [ih, calcular_canal_rng]
      omega

lemma canalesLoop_impulso (u : ℕ → ℝ) (x : Fin 5 → ℝ) (t : ℝ) (ii : ℤ) (dC S : ℝ) :
    ∀ (l : List (ℕ × ℕ)) (s : SistemaLentes),
      (canalesLoop u x t ii dC S l s).sistema.impulso = s.impulso := by
  intro l
  induction l with
  | nil => intro s; rfl
  | cons kn rest ih =>
      intro s
      simp only [canalesLoop]
      rw [ih, calcular_canal_impulso]

lemma canalesLoop_t_global (u : ℕ → ℝ) (x : Fin 5 → ℝ) (t : ℝ) (ii : ℤ) (dC S : ℝ) :
    ∀ (l : List (ℕ × ℕ)) (s : SistemaLentes),
      (canalesLoop u x t ii dC S l s).sistema.t_global = s.t_global := by
  intro l
  induction l with
  | nil => intro s; rfl
  | cons kn rest ih =>
      intro s
      simp only [canalesLoop]
      rw [ih, calcular_canal_t_global]

lemma canalesLoop_sistema_cases (u : ℕ → ℝ) (x : Fin 5 → ℝ) (t : ℝ) (ii : ℤ)
    (dC S : ℝ) : ∀ (l : List (ℕ × ℕ)) (s : SistemaLentes),
      (canalesLoop u x t ii dC S l s).sistema = s ∨
        parametrosAcotados (canalesLoop u x t ii dC S l s).sistema.p := by
  intro l
  induction l with
  | nil => intro s; exact Or.inl rfl
  | cons kn rest ih =>
      intro s
      simp only [canalesLoop]
      rcases ih (s.calcular_canal u x t kn.2 (fase kn.1) ii dC S).sistema with h | h
      · rw [h]
        exact Or.inr (calcular_canal_acotados _ _ _ _ _ _ _ _ _)
      · exact Or.inr h

lemma canalesLoop_cons_acotados (u : ℕ → ℝ) (x : Fin 5 → ℝ) (t : ℝ) (ii : ℤ)
    (dC S : ℝ) (kn : ℕ × ℕ) (rest : List (ℕ × ℕ)) (s : SistemaLentes) :
    parametrosAcotados (canalesLoop u x t ii dC S (kn :: rest) s).sistema.p := by
  simp only [canalesLoop]
  rcases canalesLoop_sistema_cases u x t ii dC S rest
      (s.calcular_canal u x t kn.2 (fase kn.1) ii dC S).sistema with h | h
  · rw [h]
    exact calcular_canal_acotados _ _ _ _ _ _ _ _ _
  · exact h

lemma paresCanalArmonico_cons :
    ∃ kn rest, paresCanalArmonico = kn :: rest := by
  exact ⟨(0, 1), [(0, 2), (0, 3), (1, 1), (1, 2), (1, 3), (2, 1), (2, 2), (2, 3),
    (3, 1), (3, 2), (3, 3), (4, 1), (4, 2), (4, 3), (5, 1), (5, 2), (5, 3),
    (6, 1), (6, 2), (6, 3)], by decide⟩

lemma funcion_onda_sistema {Pos Move : Type} (lib : ChessLib Pos Move) (u : ℕ → ℝ)
    (b : Board Pos Move) (mv : Move) (n : ℕ) (s : SistemaLentes) :
    (s.funcion_onda_movimiento lib u b mv n).2 =
      { (canalesLoop u xMuestra s.t_global (calcular_material lib b.pos % 10 + 1)
          (0.5 + ((lib.legalMoves b.pos).length : ℝ) / 100.0) (1.0 + (n : ℝ) / 100.0)
          paresCanalArmonico s).sistema with
        impulso := (canalesLoop u xMuestra s.t_global (calcular_material lib b.pos % 10 + 1)
          (0.5 + ((lib.legalMoves b.pos).length : ℝ) / 100.0) (1.0 + (n : ℝ) / 100.0)
          paresCanalArmonico s).sistema.impulso * 0.96 } := rfl

lemma funcion_onda_impulso {Pos Move : Type} (lib : ChessLib Pos Move) (u : ℕ → ℝ)
    (b : Board Pos Move) (mv : Move) (n : ℕ) (s : SistemaLentes) :
    (s.funcion_onda_movimiento lib u b mv n).2.impulso = s.impulso * 0.96 := by
  rw [funcion_onda_sistema, canalesLoop_impulso]

lemma funcion_onda_t_global {Pos Move : Type} (lib : ChessLib Pos Move) (u : ℕ → ℝ)
    (b : Board Pos Move) (mv : Move) (n : ℕ) (s : SistemaLentes) :
    (s.funcion_onda_movimiento lib u b mv n).2.t_global = s.t_global := by
  rw [funcion_onda_sistema]
  show (canalesLoop _ _ _ _ _ _ _ _).sistema.t_global = s.t_global
  rw [canalesLoop_t_global]

lemma funcion_onda_rng {Pos Move : Type} (lib : ChessLib Pos Move) (u : ℕ → ℝ)
    (b : Board Pos Move) (mv : Move) (n : ℕ) (s : SistemaLentes) :
    (s.funcion_onda_movimiento lib u b mv n).2.rng = s.rng + 21 := by
  rw [funcion_onda_sistema]
  show (canalesLoop _ _ _ _ _ _ paresCanalArmonico s).sistema.rng = s.rng + 21
  rw [canalesLoop_rng]
  rfl

lemma funcion_onda_acotados {Pos Move : Type} (lib : ChessLib Pos Move) (u : ℕ → ℝ)
    (b : Board Pos Move) (mv : Move) (n : ℕ) (s : SistemaLentes) :
    parametrosAcotados (s.funcion_onda_movimiento lib u b mv n).2.p := by
  rw [funcion_onda_sistema]
  obtain ⟨kn, rest, hp⟩ := paresCanalArmonico_cons
  rw [hp]
  show parametrosAcotados (canalesLoop _ _ _ _ _ _ (kn :: rest) s).sistema.p
  exact canalesLoop_cons_acotados _ _ _ _ _ _ _ _ _

open Classical in
/-- The pure content of the selection loop's best-tracking: starting from a
current best pair, fold over the remaining pairs, replacing the best only on
a strictly greater score (so the first maximum wins). -/
noncomputable def mejorDe {Move : Type} (e : Move × Evaluacion) :
    List (Move × Evaluacion) → Move × Evaluacion
  | [] => e
  | f :: fs => mejorDe (if f.2.score > e.2.score then f else e) fs

/-- The mode field of a `funcion_onda_movimiento` evaluation is the
channel-vote tie-break: ATACAR when strictly more channels voted ATACAR than
PENSAR, else PENSAR. -/
lemma funcion_onda_modo {Pos Move : Type} (lib : ChessLib Pos Move) (u : ℕ → ℝ)
    (b : Board Pos Move) (mv : Move) (n : ℕ) (s : SistemaLentes) :
    (s.funcion_onda_movimiento lib u b mv n).1.modo =
      if (canalesLoop u xMuestra s.t_global (calcular_material lib b.pos % 10 + 1)
            (0.5 + ((lib.legalMoves b.pos).length : ℝ) / 100.0) (1.0 + (n : ℝ) / 100.0)
            paresCanalArmonico s).modos.count Modo.ATACAR >
          (canalesLoop u xMuestra s.t_global (calcular_material lib b.pos % 10 + 1)
            (0.5 + ((lib.legalMoves b.pos).length : ℝ) / 100.0) (1.0 + (n : ℝ) / 100.0)
            paresCanalArmonico s).modos.count Modo.PENSAR
      then Modo.ATACAR else Modo.PENSAR := rfl

lemma evaluar_board {Pos Move : Type} (lib : ChessLib Pos Move) (u : ℕ → ℝ)
    (b : Board Pos Move) (mv : Move) (n : ℕ) (s : SistemaLentes) :
    (evaluar_movimiento_lentes lib u b mv n s).board = b :=
  Board.pop_push lib b mv

lemma evaluar_t_global {Pos Move : Type} (lib : ChessLib Pos Move) (u : ℕ → ℝ)
    (b : Board Pos Move) (mv : Move) (n : ℕ) (s : SistemaLentes) :
    (evaluar_movimiento_lentes lib u b mv n s).sistema.t_global = s.t_global := by
  simp only [evaluar_movimiento_lentes]
  split_ifs <;>
    simp [SistemaLentes.kick, funcion_onda_t_global]

lemma evaluar_modo {Pos Move : Type} (lib : ChessLib Pos Move) (u : ℕ → ℝ)
    (b : Board Pos Move) (mv : Move) (n : ℕ) (s : SistemaLentes) :
    (evaluar_movimiento_lentes lib u b mv n s).eval.modo =
      (s.funcion_onda_movimiento lib u (Board.push lib b mv) mv n).1.modo := by
  simp only [evaluar_movimiento_lentes]
  split_ifs <;> rfl

lemma bucleSeleccion_board {Pos Move : Type} (lib : ChessLib Pos Move) (u : ℕ → ℝ)
    (n : ℕ) : ∀ (ms : List Move) (b : Board Pos Move) (s : SistemaLentes)
      (best : Option (Move × Evaluacion)),
      (bucleSeleccion lib u n ms b s best).board = b := by
  intro ms
  induction ms with
  | nil => intro b s best; rfl
  | cons m rest ih =>
      intro b s best
      simp only [bucleSeleccion]
      rw [ih, evaluar_board]

lemma bucleSeleccion_t_global {Pos Move : Type} (lib : ChessLib Pos Move) (u : ℕ → ℝ)
    (n : ℕ) : ∀ (ms : List Move) (b : Board Pos Move) (s : SistemaLentes)
      (best : Option (Move × Evaluacion)),
      (bucleSeleccion lib u n ms b s best).sistema.t_global = s.t_global := by
  intro ms
  induction ms with
  | nil => intro b s best; rfl
  | cons m rest ih =>
      intro b s best
      simp only [bucleSeleccion]
      rw [ih, evaluar_t_global]

lemma bucleSeleccion_some {Pos Move : Type} (lib : ChessLib Pos Move) (u : ℕ → ℝ)
    (n : ℕ) : ∀ (ms : List Move) (b : Board Pos Move) (s : SistemaLentes)
      (e : Move × Evaluacion),
      (bucleSeleccion lib u n ms b s (some e)).mejor =
        some (mejorDe e (listaEvaluaciones lib u n ms b s)) := by
  intro ms
  induction ms with
  | nil => intro b s e; rfl
  | cons m rest ih =>
      intro b s e
      simp only [bucleSeleccion, listaEvaluaciones, mejorDe]
      rw [show (if (evaluar_movimiento_lentes lib u b m n s).eval.score > e.2.score
            then some (m, (evaluar_movimiento_lentes lib u b m n s).eval) else some e) =
          some (if (evaluar_movimiento_lentes lib u b m n s).eval.score > e.2.score
            then (m, (evaluar_movimiento_lentes lib u b m n s).eval) else e) from
          (apply_ite some _ _ _).symm]
      exact ih _ _ _

lemma bucleSeleccion_none {Pos Move : Type} (lib : ChessLib Pos Move) (u : ℕ → ℝ)
    (n : ℕ) (m : Move) (ms : List Move) (b : Board Pos Move) (s : SistemaLentes) :
    (bucleSeleccion lib u n (m :: ms) b s none).mejor =
      some (mejorDe (m, (evaluar_movimiento_lentes lib u b m n s).eval)
        (listaEvaluaciones lib u n ms (evaluar_movimiento_lentes lib u b m n s).board
          (evaluar_movimiento_lentes lib u b m n s).sistema)) := by
  simp only [bucleSeleccion]
  exact bucleSeleccion_some lib u n ms _ _ _

lemma listaEvaluaciones_fst {Pos Move : Type} (lib : ChessLib Pos Move) (u : ℕ → ℝ)
    (n : ℕ) : ∀ (ms : List Move) (b : Board Pos Move) (s : SistemaLentes),
      (listaEvaluaciones lib u n ms b s).map Prod.fst = ms := by
  intro ms
  induction ms with
  | nil => intro b s; rfl
  | cons m rest ih =>
      intro b s
      simp only [listaEvaluaciones, List.map_cons]
      rw [ih]

/-- Specification of `mejorDe`: over the virtual list `e :: l`, it returns
the element at the first index attaining the maximal score. -/
lemma mejorDe_spec {Move : Type} :
    ∀ (l : List (Move × Evaluacion)) (e : Move × Evaluacion),
      ∃ i : ℕ, (e :: l)[i]? = some (mejorDe e l) ∧
        (∀ f ∈ e :: l, f.2.score ≤ (mejorDe e l).2.score) ∧
        (∀ f ∈ (e :: l).take i, f.2.score < (mejorDe e l).2.score) := by
  intro l
  induction l with
  | nil =>
      intro e
      refine ⟨0, rfl, ?_, ?_⟩
      · intro f hf
        simp only [List.mem_singleton] at hf
        subst hf
        exact le_refl _
      · intro f hf
        simp only [List.take_zero] at hf
        exact absurd hf (List.not_mem_nil f)
  | cons f fs ih =>
      intro e
      by_cases hc : f.2.score > e.2.score
      · have heq : mejorDe e (f :: fs) = mejorDe f fs := by
          simp [mejorDe, hc]
        obtain ⟨i, hget, hle, hlt⟩ := ih f
        have hfle : f.2.score ≤ (mejorDe f fs).2.score :=
          hle f (List.mem_cons_self f fs)
        refine ⟨i + 1, ?_, ?_, ?_⟩
        · rw [List.getElem?_cons_succ, heq]
          exact hget
        · intro g hg
          rw [heq]
          rcases List.mem_cons.mp hg with h | h
          · subst h
            exact le_of_lt (lt_of_lt_of_le hc hfle)
          · exact hle g h
        · intro g hg
          rw [List.take_succ_cons] at hg
          rw [heq]
          rcases List.mem_cons.mp hg with h | h
          · subst h
            exact lt_of_lt_of_le hc hfle
          · exact hlt g h
      · have heq : mejorDe e (f :: fs) = mejorDe e fs := by
          simp [mejorDe, hc]
        have hfe : f.2.score ≤ e.2.score := le_of_not_lt hc
        obtain ⟨i, hget, hle, hlt⟩ := ih e
        have hee : e.2.score ≤ (mejorDe e fs).2.score :=
          hle e (List.mem_cons_self e fs)
        cases i with
        | zero =>
            refine ⟨0, ?_, ?_, ?_⟩
            · rw [heq]
              rw [List.getElem?_cons_zero] at hget
              rw [List.getElem?_cons_zero]
              exact hget
            · intro g hg
              rw [heq]
              rcases List.mem_cons.mp hg with h | h
              · subst h
                exact hee
              · rcases List.mem_cons.mp h with h2 | h2
                · subst h2
                  exact le_trans hfe hee
                · exact hle g (List.mem_cons_of_mem e h2)
            · intro g hg
              simp only [List.take_zero] at hg
              exact absurd hg (List.not_mem_nil g)
        | succ j =>
            have hjlt : ∀ g ∈ e :: fs.take j, g.2.score < (mejorDe e fs).2.score := by
              intro g hg
              apply hlt
              rw [List.take_succ_cons]
              exact hg
            have helt : e.2.score < (mejorDe e fs).2.score :=
              hjlt e (List.mem_cons_self e (fs.take j))
            refine ⟨j + 2, ?_, ?_, ?_⟩
            · rw [List.getElem?_cons_succ, List.getElem?_cons_succ, heq]
              rw [List.getElem?_cons_succ] at hget
              exact hget
            · intro g hg
              rw [heq]
              rcases List.mem_cons.mp hg with h | h
              · subst h
                exact hee
              · rcases List.mem_cons.mp h with h2 | h2
                · subst h2
                  exact le_trans hfe hee
                · exact hle g (List.mem_cons_of_mem e h2)
            · intro g hg
              rw [List.take_succ_cons, List.take_succ_cons] at hg
              rw [heq]
              rcases List.mem_cons.mp hg with h | h
              · subst h
                exact helt
              · rcases List.mem_cons.mp h with h2 | h2
                · subst h2
                  exact lt_of_le_of_lt hfe helt
                · exact hjlt g (List.mem_cons_of_mem e h2)

end Anonimus

open Nucleo Anonimus

/-- A trivial instantiation of the external chess library over unit
positions and moves, used to instantiate theorems at concrete inputs. -/
def libTrivial : ChessLib Unit Unit :=
  { applyMove := fun _ _ => ()
    legalMoves := fun _ => [()]
    isCheck := fun _ => false
    isCapture := fun _ _ => false
    pieceCount := fun _ _ _ => 0 }

/-- A concrete lens-system state with a unit impulse accumulated. -/
def sistemaImpulsoUno : SistemaLentes :=
  { p := paramsIniciales, impulso := 1, hist_error := 0, t_global := 0, rng := 0 }

/-- C1: the core exposes one operation, `simulate_game(difficulty)`, whose
`GameResult` carries the total ply count (equal to the length of the per-ply
EvalRecord history), the two accumulated total scores (the sums of the
per-ply advantage deltas recorded in the history), an outcome among MOD_WIN,
REF_WIN and DRAW determined from those totals, and the history itself. -/
theorem c1_simulate_game_estructura (d : Difficulty) (g : ℕ → ℝ) :
    (simulate_game d g).totalPlies = (simulate_game d g).history.length ∧
    (simulate_game d g).modularTotalScore =
      ((simulate_game d g).history.map EvalRecord.modAdvantageDelta).sum ∧
    (simulate_game d g).referenceTotalScore =
      ((simulate_game d g).history.map EvalRecord.refAdvantageDelta).sum ∧
    (simulate_game d g).outcome = determinarResultado (simulate_game d g).modularTotalScore
      (simulate_game d g).referenceTotalScore d ∧
    ((simulate_game d g).outcome = Outcome.MOD_WIN ∨
      (simulate_game d g).outcome = Outcome.REF_WIN ∨
      (simulate_game d g).outcome = Outcome.DRAW) := by
  have h0 : coherente estadoInicial := ⟨by simp [estadoInicial], by simp [estadoInicial]⟩
  have hc := bucle_coherente d g ((uniformInt 35 65 (g 0)).toNat) 1 estadoInicial h0
  have hl := bucle_history_length d g ((uniformInt 35 65 (g 0)).toNat) 1 estadoInicial
  refine ⟨?_, hc.1, hc.2, rfl, outcome_cases _⟩
  show (uniformInt 35 65 (g 0)).toNat =
    (bucleSimulacion d g ((uniformInt 35 65 (g 0)).toNat) 1 estadoInicial).history.length
  rw [hl]
  simp [estadoInicial]

/-- C2 (counterexample): the per-ply mode decision implemented in
`src/ANONIMUS.py` is not state-free: one `funcion_onda_movimiento` call on a
concrete input (unit board, zero draw stream, unit impulse) returns a system
state different from the input state, because the impulse accumulator is
decayed by the factor 0.96. -/
theorem c2_decision_muta_estado :
    (sistemaImpulsoUno.funcion_onda_movimiento libTrivial (fun _ => 0)
      { pos := (), stack := [] } () 1).2 ≠ sistemaImpulsoUno := by
  intro h
  have h2 := congrArg SistemaLentes.impulso h
  rw [funcion_onda_impulso] at h2
  have h3 : (1 : ℝ) * 0.96 = 1 := h2
  norm_num at h3

/-- C2 (amended): the Mode Policy of the design document (absent from
`src/`, modelled from §4.2) is a pure deterministic function of the current
position, the previous mode and the read-only history — equal inputs give
the identical Mode and no random draw is consumed; by contrast, the per-ply
mode decision implemented in `src/ANONIMUS.py` mutates the lens state and
consumes randomness: every `funcion_onda_movimiento` call multiplies the
impulse accumulator by 0.96 and consumes exactly 21 draws of the random
stream, each of its `calcular_canal` calls rewrites alpha, beta and the
error history through `ajustar_parametros` fed with one fresh draw, and the
resulting alpha genuinely depends on the drawn value (shown at a concrete
input where draws 1 and 0 give alpha 0.105 and 0.10). -/
theorem c2_politica_pura_nucleo :
    (∀ (p1 p2 : Position) (m1 m2 : Mode) (h1 h2 : List EvalRecord),
      p1 = p2 → m1 = m2 → h1 = h2 → elegirModo p1 m1 h1 = elegirModo p2 m2 h2) ∧
    (∀ {Pos Move : Type} (lib : ChessLib Pos Move) (u : ℕ → ℝ) (b : Board Pos Move)
      (mv : Move) (n : ℕ) (s : SistemaLentes),
      (s.funcion_onda_movimiento lib u b mv n).2.impulso = s.impulso * 0.96) ∧
    (∀ (s : SistemaLentes) (u : ℕ → ℝ) (x : Fin 5 → ℝ) (t : ℝ) (n : ℕ) (fc : ℝ)
      (ii : ℤ) (dC S : ℝ),
      (s.calcular_canal u x t n fc ii dC S).sistema =
        SistemaLentes.ajustar_parametros { s with rng := s.rng + 1 }
          (0.12 * Real.sin (0.13 * t + fc) + 0.05 * u s.rng)) ∧
    (∀ {Pos Move : Type} (lib : ChessLib Pos Move) (u : ℕ → ℝ) (b : Board Pos Move)
      (mv : Move) (n : ℕ) (s : SistemaLentes),
      (s.funcion_onda_movimiento lib u b mv n).2.rng = s.rng + 21) ∧
    ((sistemaInicial paramsIniciales).calcular_canal (fun _ => 1)
        xMuestra 0 1 0 1 0.5 1).sistema.p.alpha ≠
      ((sistemaInicial paramsIniciales).calcular_canal (fun _ => 0)
        xMuestra 0 1 0 1 0.5 1).sistema.p.alpha := by
  refine ⟨?_, ?_, calcular_canal_sistema, ?_, ?_⟩
  · intro p1 p2 m1 m2 h1 h2 e1 e2 e3
    rw [e1, e2, e3]
  · intro Pos Move lib u b mv n s
    exact funcion_onda_impulso lib u b mv n s
  · intro Pos Move lib u b mv n s
    exact funcion_onda_rng lib u b mv n s
  · have h1 : ((sistemaInicial paramsIniciales).calcular_canal (fun _ => 1)
        xMuestra 0 1 0 1 0.5 1).sistema.p.alpha = 0.105 := by
      rw [calcular_canal_sistema]
      show max 0.01 (min 0.50
        ((0.10 : ℝ) + 0.10 * (0.12 * Real.sin (0.13 * 0 + 0) + 0.05 * 1))) = 0.105
      rw [show (0.13 * (0 : ℝ) + 0) = 0 by norm_num, Real.sin_zero]
      rw [show (0.10 : ℝ) + 0.10 * (0.12 * 0 + 0.05 * 1) = 0.105 by norm_num]
      rw [min_eq_right (by norm_num : (0.105 : ℝ) ≤ 0.50),
        max_eq_right (by norm_num : (0.01 : ℝ) ≤ 0.105)]
    have h0 : ((sistemaInicial paramsIniciales).calcular_canal (fun _ => 0)
        xMuestra 0 1 0 1 0.5 1).sistema.p.alpha = 0.10 := by
      rw [calcular_canal_sistema]
      show max 0.01 (min 0.50
        ((0.10 : ℝ) + 0.10 * (0.12 * Real.sin (0.13 * 0 + 0) + 0.05 * 0))) = 0.10
      rw [show (0.13 * (0 : ℝ) + 0) = 0 by norm_num, Real.sin_zero]
      rw [show (0.10 : ℝ) + 0.10 * (0.12 * 0 + 0.05 * 0) = 0.10 by norm_num]
      rw [min_eq_right (by norm_num : (0.10 : ℝ) ≤ 0.50),
        max_eq_right (by norm_num : (0.01 : ℝ) ≤ 0.10)]
    rw [h1, h0]
    norm_num

/-- C2 (witness): the purity statement applied at a concrete position,
previous mode and history. -/
theorem c2_politica_pura_nucleo_witness :
    elegirModo ⟨1000, 30, 50, 10, Phase.MIDDLEGAME⟩ Mode.PENSAR [] =
      elegirModo ⟨1000, 30, 50, 10, Phase.MIDDLEGAME⟩ Mode.PENSAR [] :=
  c2_politica_pura_nucleo.1 _ _ _ _ _ _ rfl rfl rfl

/-- C3: the Mode Policy decides by a fixed-precedence chain: rules 2-7 in
order with the first match winning, and the rule-1 trending flag consulted
only in the final otherwise-branch, where it selects ATACAR if true and
PENSAR otherwise. -/
theorem c3_cadena_precedencia (pos : Position) (prev : Mode)
    (hist : List EvalRecord) :
    (pos.control > 70 ∧ pos.mobility > 35 →
      elegirModo pos prev hist = Mode.ATACAR) ∧
    (¬(pos.control > 70 ∧ pos.mobility > 35) →
      pos.control < 30 ∧ pos.mobility < 20 →
      elegirModo pos prev hist = Mode.PENSAR) ∧
    (¬(pos.control > 70 ∧ pos.mobility > 35) →
      ¬(pos.control < 30 ∧ pos.mobility < 20) →
      pos.phase = Phase.OPENING →
      elegirModo pos prev hist = Mode.PENSAR) ∧
    (¬(pos.control > 70 ∧ pos.mobility > 35) →
      ¬(pos.control < 30 ∧ pos.mobility < 20) →
      ¬pos.phase = Phase.OPENING →
      pos.phase = Phase.ENDGAME ∧ pos.mobility > 25 →
      elegirModo pos prev hist = Mode.ATACAR) ∧
    (¬(pos.control > 70 ∧ pos.mobility > 35) →
      ¬(pos.control < 30 ∧ pos.mobility < 20) →
      ¬pos.phase = Phase.OPENING →
      ¬(pos.phase = Phase.ENDGAME ∧ pos.mobility > 25) →
      prev = Mode.PENSAR ∧ pos.mobility > 30 →
      elegirModo pos prev hist = Mode.ATACAR) ∧
    (¬(pos.control > 70 ∧ pos.mobility > 35) →
      ¬(pos.control < 30 ∧ pos.mobility < 20) →
      ¬pos.phase = Phase.OPENING →
      ¬(pos.phase = Phase.ENDGAME ∧ pos.mobility > 25) →
      ¬(prev = Mode.PENSAR ∧ pos.mobility > 30) →
      prev = Mode.ATACAR ∧ pos.control < 40 →
      elegirModo pos prev hist = Mode.PENSAR) ∧
    (¬(pos.control > 70 ∧ pos.mobility > 35) →
      ¬(pos.control < 30 ∧ pos.mobility < 20) →
      ¬pos.phase = Phase.OPENING →
      ¬(pos.phase = Phase.ENDGAME ∧ pos.mobility > 25) →
      ¬(prev = Mode.PENSAR ∧ pos.mobility > 30) →
      ¬(prev = Mode.ATACAR ∧ pos.control < 40) →
      elegirModo pos prev hist =
        (if trending hist pos.phase then Mode.ATACAR else Mode.PENSAR)) := by
  refine ⟨?_, ?_, ?_, ?_, ?_, ?_, ?_⟩
  · intro h1
    simp only [elegirModo]
    rw [if_pos h1]
  · intro h1 h2
    simp only [elegirModo]
    rw [if_neg h1, if_pos h2]
  · intro h1 h2 h3
    simp only [elegirModo]
    rw [if_neg h1, if_neg h2, if_pos h3]
  · intro h1 h2 h3 h4
    simp only [elegirModo]
    rw [if_neg h1, if_neg h2, if_neg h3, if_pos h4]
  · intro h1 h2 h3 h4 h5
    simp only [elegirModo]
    rw [if_neg h1, if_neg h2, if_neg h3, if_neg h4, if_pos h5]
  · intro h1 h2 h3 h4 h5 h6
    simp only [elegirModo]
    rw [if_neg h1, if_neg h2, if_neg h3, if_neg h4, if_neg h5, if_pos h6]
  · intro h1 h2 h3 h4 h5 h6
    simp only [elegirModo]
    rw [if_neg h1, if_neg h2, if_neg h3, if_neg h4, if_neg h5, if_neg h6]

/-- C4: the mode chosen for a ply is always one of exactly two values:
the per-ply decision of `funcion_onda_movimiento` (the channel vote
tie-break) only ever produces ATACAR or PENSAR, and so does the evaluation
returned by `evaluar_movimiento_lentes` — even though individual channels
may also report LATENTE. -/
theorem c4_modo_binario {Pos Move : Type} (lib : ChessLib Pos Move) (u : ℕ → ℝ)
    (s : SistemaLentes) (b : Board Pos Move) (mv : Move) (n : ℕ) :
    ((s.funcion_onda_movimiento lib u b mv n).1.modo = Modo.ATACAR ∨
      (s.funcion_onda_movimiento lib u b mv n).1.modo = Modo.PENSAR) ∧
    ((evaluar_movimiento_lentes lib u b mv n s).eval.modo = Modo.ATACAR ∨
      (evaluar_movimiento_lentes lib u b mv n s).eval.modo = Modo.PENSAR) := by
  constructor
  · rw [funcion_onda_modo]
    split_ifs
    · exact Or.inl rfl
    · exact Or.inr rfl
  · rw [evaluar_modo, funcion_onda_modo]
    split_ifs
    · exact Or.inl rfl
    · exact Or.inr rfl

/-- C5: the Gap Detector returns gapMagnitude equal to the absolute
difference between the modular score and the reference score scaled by ten
and rounded; it detects exactly when the mode is ATACAR with gap above 8 or
PENSAR with gap above 5; and on modularScore 50, referenceScore 3.0, mode
ATACAR it yields gap 20 and detected true. -/
theorem c5_detector_brecha :
    (∀ (m : ℤ) (r : ℝ) (mode : Mode),
      (detectarGap m r mode).2 = |(m : ℝ) - ((round (r * 10) : ℤ) : ℝ)| ∧
      ((detectarGap m r mode).1 = true ↔
        ((mode = Mode.ATACAR ∧ |(m : ℝ) - ((round (r * 10) : ℤ) : ℝ)| > 8) ∨
         (mode = Mode.PENSAR ∧ |(m : ℝ) - ((round (r * 10) : ℤ) : ℝ)| > 5)))) ∧
    detectarGap 50 3 Mode.ATACAR = (true, 20) := by
  constructor
  · intro m r mode
    constructor
    · rfl
    · simp only [detectarGap]
      split_ifs with hc
      · exact ⟨fun _ => hc, fun _ => rfl⟩
      · simp [hc]
  · simp only [detectarGap]
    have h1 : ((3 : ℝ) * 10) = ((30 : ℤ) : ℝ) := by norm_num
    rw [h1, round_intCast]
    have h2 : |((50 : ℤ) : ℝ) - ((30 : ℤ) : ℝ)| = 20 := by
      rw [show ((50 : ℤ) : ℝ) - ((30 : ℤ) : ℝ) = 20 by push_cast; ring]
      exact abs_of_nonneg (by norm_num)
    rw [h2]
    norm_num

/-- C6: the outcome margin is 1.35 at NORMAL, 1.25 at HARD and 1.15 at
VERY_HARD; the outcome is MOD_WIN exactly when the modular total beats the
reference total times the margin; under non-negative totals it is REF_WIN
exactly when the reference total beats the modular total times the margin,
and DRAW exactly when neither beats the other; and at NORMAL, totals
(140, 100) give MOD_WIN while (130, 100) give DRAW. -/
theorem c6_resultado_margen :
    (margen Difficulty.NORMAL = 1.35 ∧ margen Difficulty.HARD = 1.25 ∧
      margen Difficulty.VERY_HARD = 1.15) ∧
    (∀ (mt rt : ℝ) (d : Difficulty),
      (determinarResultado mt rt d = Outcome.MOD_WIN ↔ mt > rt * margen d)) ∧
    (∀ (mt rt : ℝ) (d : Difficulty), 0 ≤ mt → 0 ≤ rt →
      ((determinarResultado mt rt d = Outcome.REF_WIN ↔ rt > mt * margen d) ∧
       (determinarResultado mt rt d = Outcome.DRAW ↔
         ¬mt > rt * margen d ∧ ¬rt > mt * margen d))) ∧
    determinarResultado 140 100 Difficulty.NORMAL = Outcome.MOD_WIN ∧
    determinarResultado 130 100 Difficulty.NORMAL = Outcome.DRAW := by
  refine ⟨⟨rfl, rfl, rfl⟩, ?_, ?_, ?_, ?_⟩
  · intro mt rt d
    simp only [determinarResultado]
    split_ifs with h1 h2
    · simp [h1]
    · simp [h1]
    · simp [h1]
  · intro mt rt d hmt hrt
    have hm := margen_ge_one d
    have key : ¬(mt > rt * margen d ∧ rt > mt * margen d) := by
      rintro ⟨ha, hb⟩
      nlinarith
    simp only [determinarResultado]
    split_ifs with h1 h2
    · constructor
      · constructor
        · intro habs
          exact absurd habs (by simp)
        · intro hb
          exact absurd ⟨h1, hb⟩ key
      · constructor
        · intro habs
          exact absurd habs (by simp)
        · rintro ⟨hn1, _⟩
          exact absurd h1 hn1
    · constructor
      · exact ⟨fun _ => h2, fun _ => rfl⟩
      · constructor
        · intro habs
          exact absurd habs (by simp)
        · rintro ⟨_, hn2⟩
          exact absurd h2 hn2
    · constructor
      · constructor
        · intro habs
          exact absurd habs (by simp)
        · intro hb
          exact absurd hb h2
      · exact ⟨fun _ => ⟨h1, h2⟩, fun _ => rfl⟩
  · simp only [determinarResultado, margen]
    rw [if_pos (by norm_num : (140 : ℝ) > 100 * 1.35)]
  · simp only [determinarResultado, margen]
    rw [if_neg (by norm_num : ¬(130 : ℝ) > 100 * 1.35),
      if_neg (by norm_num : ¬(100 : ℝ) > 130 * 1.35)]

/-- C6 (witness): the non-negative-totals characterisation applied at the
concrete totals (100, 140) at NORMAL difficulty, giving REF_WIN. -/
theorem c6_resultado_margen_witness :
    determinarResultado 100 140 Difficulty.NORMAL = Outcome.REF_WIN ↔
      (140 : ℝ) > 100 * margen Difficulty.NORMAL :=
  (c6_resultado_margen.2.2.1 100 140 Difficulty.NORMAL (by norm_num) (by norm_num)).1

/-- C7: the Modular Evaluator is a deterministic integer function of its
five inputs — equal inputs give the same integer — computed by combining
the adjusted base (material·100 + mobility·10 + control + ply·13, plus the
strategy-change bonus and minus the stagnation penalty) taken mod 7 and
mod 10 according to the mode; evaluated concretely, position
(1000, 30, 50) at ply 10 in PENSAR mode with count 2 gives 2. -/
theorem c7_evaluador_modular :
    (∀ (p1 p2 : Position) (ply1 ply2 : ℕ) (m1 m2 pm1 pm2 : Mode) (k1 k2 : ℕ),
      p1 = p2 → ply1 = ply2 → m1 = m2 → pm1 = pm2 → k1 = k2 →
      evaluarModular p1 ply1 m1 pm1 k1 = evaluarModular p2 ply2 m2 pm2 k2) ∧
    (∀ (pos : Position) (ply : ℕ) (mode prevMode : Mode) (k : ℕ),
      evaluarModular pos ply mode prevMode k =
        combinarModular mode (baseAjustada pos ply mode prevMode k % 7)
          (baseAjustada pos ply mode prevMode k % 10)) ∧
    (∀ (pos : Position) (ply : ℕ) (mode prevMode : Mode) (k : ℕ),
      baseAjustada pos ply mode prevMode k =
        pos.material * 100 + pos.mobility * 10 + pos.control + (ply : ℤ) * 13 +
          (if prevMode ≠ mode then 17 else 0) -
          (if k > 5 then (k : ℤ) * 7 else 0)) ∧
    evaluarModular ⟨1000, 30, 50, 10, Phase.MIDDLEGAME⟩ 10 Mode.PENSAR Mode.PENSAR 2 = 2 := by
  refine ⟨?_, evaluarModular_eq_combinar, fun _ _ _ _ _ => rfl, by decide⟩
  intro p1 p2 ply1 ply2 m1 m2 pm1 pm2 k1 k2 e1 e2 e3 e4 e5
  rw [e1, e2, e3, e4, e5]

/-- C7 (witness): the purity statement applied at one concrete input pair. -/
theorem c7_evaluador_modular_witness :
    evaluarModular ⟨800, 20, 40, 7, Phase.OPENING⟩ 7 Mode.ATACAR Mode.PENSAR 1 =
      evaluarModular ⟨800, 20, 40, 7, Phase.OPENING⟩ 7 Mode.ATACAR Mode.PENSAR 1 :=
  c7_evaluador_modular.1 _ _ _ _ _ _ _ _ _ _ rfl rfl rfl rfl rfl

/-- C8: after every `ajustar_parametros` call, for every error value and
every prior state, the lens parameters satisfy 0.01 ≤ α ≤ 0.50 and
0.01 ≤ β ≤ 0.25; the other operations of the lens system either leave the
parameters untouched (`kick`, `avanzar_tiempo`) or re-establish the bounds
(`calcular_canal`, `funcion_onda_movimiento`, whose states always pass
through `ajustar_parametros`); the constructed default parameters also
satisfy the bounds. -/
theorem c8_parametros_acotados :
    (∀ (s : SistemaLentes) (e : ℝ), parametrosAcotados (s.ajustar_parametros e).p) ∧
    (∀ (s : SistemaLentes) (m : ℝ), (s.kick m).p = s.p) ∧
    (∀ (s : SistemaLentes) (dt : ℝ), (s.avanzar_tiempo dt).p = s.p) ∧
    (∀ (s : SistemaLentes) (u : ℕ → ℝ) (x : Fin 5 → ℝ) (t : ℝ) (n : ℕ) (fc : ℝ)
      (ii : ℤ) (dC S : ℝ),
      parametrosAcotados (s.calcular_canal u x t n fc ii dC S).sistema.p) ∧
    (∀ {Pos Move : Type} (lib : ChessLib Pos Move) (u : ℕ → ℝ) (b : Board Pos Move)
      (mv : Move) (n : ℕ) (s : SistemaLentes),
      parametrosAcotados (s.funcion_onda_movimiento lib u b mv n).2.p) ∧
    parametrosAcotados paramsIniciales := by
  refine ⟨ajustar_parametros_acotados, kick_p, avanzar_tiempo_p,
    calcular_canal_acotados, ?_, ?_⟩
  · intro Pos Move lib u b mv n s
    exact funcion_onda_acotados lib u b mv n s
  · refine ⟨?_, ?_, ?_, ?_⟩ <;> norm_num [paramsIniciales]

/-- C9: `evaluar_movimiento_lentes` leaves its board argument unchanged —
it pushes the move, evaluates, and pops before returning, so the board
after the call equals the board before; moreover the quantum time is not
advanced (only the lens parameters, error history and impulse may move). -/
theorem c9_tablero_restaurado {Pos Move : Type} (lib : ChessLib Pos Move)
    (u : ℕ → ℝ) (b : Board Pos Move) (mv : Move) (n : ℕ) (s : SistemaLentes) :
    (evaluar_movimiento_lentes lib u b mv n s).board = b ∧
    (evaluar_movimiento_lentes lib u b mv n s).sistema.t_global = s.t_global :=
  ⟨evaluar_board lib u b mv n s, evaluar_t_global lib u b mv n s⟩

/-- C10: `seleccionar_movimiento_lentes` returns no move exactly when the
board has no legal moves, in which case board and system state are returned
untouched; otherwise it returns the first legal move (in iteration order)
whose evaluated score is maximal over the per-iteration evaluations,
together with that move's evaluation, restores the board, and advances the
quantum time by exactly 0.08. -/
theorem c10_seleccion_primer_maximo {Pos Move : Type} (lib : ChessLib Pos Move)
    (u : ℕ → ℝ) (b : Board Pos Move) (n : ℕ) (s : SistemaLentes) :
    ((seleccionar_movimiento_lentes lib u b n s).mejor = none ↔
      lib.legalMoves b.pos = []) ∧
    (lib.legalMoves b.pos = [] →
      seleccionar_movimiento_lentes lib u b n s =
        { mejor := none, board := b, sistema := s }) ∧
    ((listaEvaluaciones lib u n (lib.legalMoves b.pos) b s).map Prod.fst =
      lib.legalMoves b.pos) ∧
    (lib.legalMoves b.pos ≠ [] →
      (seleccionar_movimiento_lentes lib u b n s).board = b ∧
      (seleccionar_movimiento_lentes lib u b n s).sistema.t_global = s.t_global + 0.08 ∧
      ∃ (i : ℕ) (e : Move × Evaluacion),
        (listaEvaluaciones lib u n (lib.legalMoves b.pos) b s)[i]? = some e ∧
        (seleccionar_movimiento_lentes lib u b n s).mejor = some e ∧
        (∀ f ∈ listaEvaluaciones lib u n (lib.legalMoves b.pos) b s,
          f.2.score ≤ e.2.score) ∧
        (∀ f ∈ (listaEvaluaciones lib u n (lib.legalMoves b.pos) b s).take i,
          f.2.score < e.2.score)) := by
  refine ⟨?_, ?_, listaEvaluaciones_fst lib u n _ b s, ?_⟩
  · cases hl : lib.legalMoves b.pos with
    | nil =>
        simp only [seleccionar_movimiento_lentes, hl]
    | cons m ms =>
        simp only [seleccionar_movimiento_lentes, hl]
        rw [bucleSeleccion_none lib u n m ms b s]
        simp
  · intro h
    simp only [seleccionar_movimiento_lentes, h]
  · intro hne
    obtain ⟨m, ms, hl⟩ := List.exists_cons_of_ne_nil hne
    rw [hl]
    refine ⟨?_, ?_, ?_⟩
    · simp only [seleccionar_movimiento_lentes, hl]
      exact bucleSeleccion_board lib u n (m :: ms) b s none
    · simp only [seleccionar_movimiento_lentes, hl]
      show (bucleSeleccion lib u n (m :: ms) b s none).sistema.t_global + 0.08 =
        s.t_global + 0.08
      rw [bucleSeleccion_t_global]
    · have hcons : listaEvaluaciones lib u n (m :: ms) b s =
          (m, (evaluar_movimiento_lentes lib u b m n s).eval) ::
            listaEvaluaciones lib u n ms (evaluar_movimiento_lentes lib u b m n s).board
              (evaluar_movimiento_lentes lib u b m n s).sistema := rfl
      obtain ⟨i, hget, hle, hlt⟩ := mejorDe_spec
        (listaEvaluaciones lib u n ms (evaluar_movimiento_lentes lib u b m n s).board
          (evaluar_movimiento_lentes lib u b m n s).sistema)
        (m, (evaluar_movimiento_lentes lib u b m n s).eval)
      refine ⟨i, mejorDe (m, (evaluar_movimiento_lentes lib u b m n s).eval)
          (listaEvaluaciones lib u n ms (evaluar_movimiento_lentes lib u b m n s).board
            (evaluar_movimiento_lentes lib u b m n s).sistema), ?_, ?_, ?_, ?_⟩
      · rw [hcons]
        exact hget
      · simp only [seleccionar_movimiento_lentes, hl]
        exact bucleSeleccion_none lib u n m ms b s
      · intro f hf
        rw [hcons] at hf
        exact hle f hf
      · intro f hf
        rw [hcons] at hf
        exact hlt f hf

/-- C10 (witness): the non-empty case applied to the trivial library (one
legal move): the quantum time advances by exactly 0.08. -/
theorem c10_seleccion_primer_maximo_witness :
    (seleccionar_movimiento_lentes libTrivial (fun _ => 0)
      { pos := (), stack := [] } 1 (sistemaInicial paramsIniciales)).sistema.t_global =
      (sistemaInicial paramsIniciales).t_global + 0.08 :=
  ((c10_seleccion_primer_maximo libTrivial (fun _ => 0) { pos := (), stack := [] } 1
    (sistemaInicial paramsIniciales)).2.2.2 (by decide)).2.1

/-- C3 (witness): rule 2 fired at a concrete position with control 80 and
mobility 40. -/
theorem c3_cadena_precedencia_witness :
    elegirModo ⟨1000, 40, 80, 20, Phase.MIDDLEGAME⟩ Mode.PENSAR [] = Mode.ATACAR :=
  (c3_cadena_precedencia ⟨1000, 40, 80, 20, Phase.MIDDLEGAME⟩ Mode.PENSAR []).1 (by decide)
